import Mathlib

/-!
Verification of the ASDL → C++ reader-code generator (`asdl/gen_cpp.py`).

The development shallowly embeds the generator: generated text is modelled as
lists of characters (`Line`), each emitted physical line is one `Line`, and the
stateful visitor pipeline becomes explicit state passing.  Python operations
that can raise (the reflow assertion, dictionary lookup, the attribute-type
assertion) are modelled with `Option`: `none` is a fatal error.  Python
`%`-template interpolation is modelled structurally by string concatenation,
which coincides with the source for names that do not themselves contain `%`
conversion specifiers.
-/

namespace GenCpp

/-- A line (or chunk) of generated text, modelled as its character sequence. -/
abbrev Line := List Char

/-- Shorthand turning a Lean string literal into a `Line`. -/
def lit (s : String) : Line := s.data

/-- The newline appended by `FormatLines`. -/
def nl : Line := lit "\n"

/-- `TABSIZE = 2` from the source. -/
def TABSIZE : Nat := 2

/-- `MAX_COL = 80` from the source. -/
def MAX_COL : Nat := 80

/-- Python slice-index adjustment: a negative index counts from the end and is
clamped at 0; a nonnegative index is clamped at the length. -/
def pyAdj (len : Nat) (e : Int) : Nat :=
  if e < 0 then ((len : Int) + e).toNat else min len e.toNat

/-- Index of the last space in a character list, if any. -/
def lastSpaceIdx : Line → Option Nat
  | [] => none
  | c :: rest =>
    match lastSpaceIdx rest with
    | some k => some (k + 1)
    | none => if c = ' ' then some 0 else none

/-- Python `cur.rfind(' ', 0, e)`: highest index of a space below the adjusted
bound `e`, or `-1` when there is none. -/
def rfindSpace (cur : Line) (e : Int) : Int :=
  match lastSpaceIdx (cur.take (pyAdj cur.length e)) with
  | some k => (k : Int)
  | none => -1

/-- Python `cur.find(c, 0, e)`: lowest index of `c` below the adjusted bound
`e`, or `-1` when there is none. -/
def pyFind (c : Char) (cur : Line) (e : Int) : Int :=
  match (cur.take (pyAdj cur.length e)).findIdx? (fun x => x = c) with
  | some k => (k : Int)
  | none => -1

/-- Test whether `pat` occurs as a contiguous run inside `l`
(Python `pat in l`). -/
def hasSub (pat : Line) : Line → Bool
  | [] => pat.isEmpty
  | c :: rest => pat.isPrefixOf (c :: rest) || hasSub pat rest

/-- The magic substring of the `XXX` special case in `ReflowLines`. -/
def GENEXP : Line := lit "GeneratorExp"

/-- The opening brace character. -/
def braceO : Char := '\x7b'

/-- The loop of `ReflowLines`: state is the remaining text `cur`, the current
budget `size`, the continuation `padding` and the accumulated `lines`.  The
`assert i != -1` of the source is modelled by returning `none`.  The fuel
argument only serves termination; `ReflowLines` supplies enough fuel for every
run of the Python loop that terminates (the loop can diverge only for budgets
far below 0, i.e. depths ≥ 43, which the generator never uses; there the
model returns `none`). -/
def reflowLoop : Nat → Line → Int → Line → List Line → Option (List Line)
  | 0, _, _, _, _ => none
  | fuel + 1, cur, size, padding, lines =>
    if (cur.length : Int) > size then
      let i0 := rfindSpace cur size
      let i : Int := if i0 = -1 && hasSub GENEXP cur then size + 3 else i0
      if i = -1 then none
      else
        let lines2 := lines ++ [padding ++ cur.take (pyAdj cur.length i)]
        let sp : Int × Line :=
          if lines2.length = 1 then
            let j := pyFind braceO cur i
            if 0 ≤ j then (size - (j + 2), List.replicate (j + 2).toNat ' ')
            else
              let j2 := pyFind '(' cur i
              if 0 ≤ j2 then (size - (j2 + 1), List.replicate (j2 + 1).toNat ' ')
              else (size, padding)
          else (size, padding)
        reflowLoop fuel (cur.drop (pyAdj cur.length (i + 1))) sp.1 sp.2 lines2
    else
      some (lines ++ [padding ++ cur])

/-- `ReflowLines(s, depth)` from the source: reflow line `s` for indentation
depth `depth` into pieces that fit the column budget
`MAX_COL - depth * TABSIZE`. -/
def ReflowLines (s : Line) (depth : Nat) : Option (List Line) :=
  let size : Int := (MAX_COL : Int) - (depth : Int) * (TABSIZE : Int)
  if (s.length : Int) < size then some [s]
  else reflowLoop (s.length + 2) s size [] []

/-- `FormatLines(s, depth)` from the source (with the default `reflow=True`
used by every caller): reflow, then indent each piece and append a newline. -/
def FormatLines (s : Line) (depth : Nat) : Option (List Line) :=
  (ReflowLines s depth).map
    (List.map (fun line => List.replicate (TABSIZE * depth) ' ' ++ line ++ nl))

/-- The column budget for a given depth. -/
def budget (depth : Nat) : Int :=
  (MAX_COL : Int) - (depth : Int) * (TABSIZE : Int)

/-- Decimal rendering of a nonnegative integer (Python `%d`). -/
def natStr (n : Nat) : Line := (Nat.repr n).data

/-- Python `l.endswith(suffix)`. -/
def endsWithL (l suffix : Line) : Bool :=
  decide (l.drop (l.length - suffix.length) = suffix)

/-! ### Schema model

Modelled from the spec: the schema model (`asdl_.py`) is an external
collaborator that is not under `src/`; §3 of the spec fixes its shape.  Names
follow the attribute names the generator reads (`field.type`, `field.seq`,
`field.opt`, `sum.types`, `sum.attributes`, `product.fields`,
`product.attributes`, `module.dfns`, `module.types`). -/

/-- Modelled from the spec: a schema field. -/
structure Field where
  name : Line
  type : Line
  seq : Bool
  opt : Bool
deriving DecidableEq

/-- Modelled from the spec: a sum variant with its field list. -/
structure Constructor where
  name : Line
  fields : List Field
deriving DecidableEq

/-- Modelled from the spec: a sum type (`types` is the ordered variant list,
as read by the generator via `sum.types`). -/
structure Sum where
  types : List Constructor
  attributes : List Field
deriving DecidableEq

/-- Modelled from the spec: a product type. -/
structure Product where
  fields : List Field
  attributes : List Field
deriving DecidableEq

/-- Modelled from the spec: the body of a type definition is a sum or a
product. -/
inductive TypeVal where
  | sum (s : Sum)
  | product (p : Product)
deriving DecidableEq

/-- Modelled from the spec: a named type definition. -/
structure TypeDef where
  name : Line
  value : TypeVal
deriving DecidableEq

/-- Modelled from the spec: an ordered module of type definitions. -/
structure Module where
  dfns : List TypeDef
deriving DecidableEq

/-- Modelled from the spec: `asdl.is_simple` — a Sum is simple iff every
Constructor has zero fields. -/
def is_simple (s : Sum) : Bool := s.types.all (fun c => c.fields.isEmpty)

/-- Modelled from the spec: the lookup table `module.types` mapping a type
name to its definition body, used by `GetCppType`. -/
def Module.typesLookup (m : Module) (name : Line) : Option TypeVal :=
  (m.dfns.find? (fun d => d.name == name)).map (fun d => d.value)

/-- Modelled from the spec: `asdl.builtin_types` — the builtin scalars
(string, integer, boolean, and the domain token-id enumeration). -/
def builtin_types : List Line := [lit "string", lit "int", lit "bool", lit "id"]

/-- The `_BUILTINS` mapping of the source. -/
def _BUILTINS (t : Line) : Option Line :=
  if t = lit "string" then some (lit "char*")
  else if t = lit "int" then some (lit "int")
  else if t = lit "bool" then some (lit "bool")
  else if t = lit "id" then some (lit "Id")
  else none

/-- `AsdlVisitor.GetCppType` from the source: builtins win; then a simple Sum
maps to its bare enum type; then an optional field maps to a pointer and a
required one to a reference.  A name that resolves neither to a builtin nor to
a module type is a fatal error (`KeyError`). -/
def GetCppType (mod : Module) (field : Field) : Option Line :=
  match _BUILTINS field.type with
  | some c => some c
  | none =>
    match mod.typesLookup field.type with
    | none => none
    | some (TypeVal.sum s) =>
      if is_simple s then some (field.type ++ lit "_e")
      else if field.opt then some (field.type ++ lit "_t*")
      else some (field.type ++ lit "_t&")
    | some (TypeVal.product _) =>
      if field.opt then some (field.type ++ lit "_t*")
      else some (field.type ++ lit "_t&")

/-- Modelled from the spec: `encode.Params` (`asdl/encode.py` is not under
`src/`).  The spec defines `ref_width` as "the fixed byte width of every
offset/integer slot in the encoding"; the emitted decode primitive in the
source epilogue reads exactly 3 bytes per slot, so `ref_width = 3`, and for
the default alignment of 4 the index element type is `uint32_t`. -/
structure Params where
  ref_width : Nat := 3
  pointer_type : Line := lit "uint32_t"

/-- The parameters fixed in `main` (`alignment = 4`). -/
def encParams : Params := {}

/-! ### Accessor templates (the local template strings of `VisitField`) -/

/-- The `SIMPLE` template: an accessor taking no base pointer. -/
def SIMPLE (ctype mqn : Line) : Line :=
  lit "inline " ++ ctype ++ lit " " ++ mqn ++ lit "() const \x7b"

/-- The `POINTER` template: an accessor taking a base pointer. -/
def POINTER (ctype mqn pt : Line) : Line :=
  lit "inline const " ++ ctype ++ lit " " ++ mqn ++ lit "(const " ++ pt ++
    lit "* base) const"

/-- The `A_POINTER` template: an indexed accessor taking a base pointer. -/
def A_POINTER (ctype mqn pt : Line) : Line :=
  lit "inline const " ++ ctype ++ lit " " ++ mqn ++ lit "(const " ++ pt ++
    lit "* base, int index) const"

/-- The `ARRAY_OFFSET` statement: element position for repeated fields, with
its fixed per-element stride of 3, shared by every element kind. -/
def ARRAY_OFFSET : Line := lit "int a = (index+1) * 3;"

/-- The size-accessor header for a repeated field. -/
def sizeHeader (name pt : Line) : Line :=
  lit "inline int " ++ name ++ lit "_size(const " ++ pt ++ lit "* base) const \x7b"

/-- The size-accessor body for a repeated field: the element count is the
integer at position 0 of the array reached via the field's offset. -/
def sizeBody (offset : Nat) : Line :=
  lit "return Ref(base, " ++ natStr offset ++ lit ").Int(0);"

/-- `ClassDefVisitor.VisitField` from the source.  The first returned list is
what is written inline (inside the class body); the second is what the call
appends to the deferred `footer` queue. -/
def VisitField (mod : Module) (pt : Line) (enum_types : List Line)
    (field : Field) (type_name : Line) (offset : Nat) (depth : Nat) :
    Option (List Line × List Line) := do
  let ctype ← GetCppType mod field
  let name := field.name
  if field.seq then
    let e1 ← FormatLines (sizeHeader name pt) depth
    let e2 ← FormatLines (sizeBody offset) (depth + 1)
    let e3 ← FormatLines (lit "\x7d") depth
    let sizeOut := e1 ++ e2 ++ e3
    if ctype = lit "bool" ∨ ctype = lit "int" then
      let h ← FormatLines (A_POINTER ctype name pt ++ lit " \x7b") depth
      let m ← FormatLines ARRAY_OFFSET (depth + 1)
      let b ← FormatLines
        (lit "return Ref(base, " ++ natStr offset ++ lit ").Int(a);") (depth + 1)
      let c ← FormatLines (lit "\x7d") depth
      pure (sizeOut ++ h ++ m ++ b ++ c, [])
    else if endsWithL ctype (lit "_e") then
      let h ← FormatLines (A_POINTER ctype name pt ++ lit " \x7b") depth
      let m ← FormatLines ARRAY_OFFSET (depth + 1)
      let b ← FormatLines
        (lit "return static_cast<const " ++ ctype ++ lit ">(Ref(base, " ++
          natStr offset ++ lit ").Int(a));") (depth + 1)
      let c ← FormatLines (lit "\x7d") depth
      pure (sizeOut ++ h ++ m ++ b ++ c, [])
    else if ctype = lit "char*" then
      let h ← FormatLines (A_POINTER ctype name pt ++ lit " \x7b") depth
      let m ← FormatLines ARRAY_OFFSET (depth + 1)
      let b ← FormatLines
        (lit "return Ref(base, " ++ natStr offset ++ lit ").Str(base, a);")
        (depth + 1)
      let c ← FormatLines (lit "\x7d") depth
      pure (sizeOut ++ h ++ m ++ b ++ c, [])
    else
      let proto ← FormatLines (A_POINTER ctype name pt ++ lit ";") depth
      let fd ← FormatLines
        (A_POINTER ctype (type_name ++ lit "::" ++ name) pt ++ lit " \x7b") 0
      let ao ← FormatLines ARRAY_OFFSET 1
      let fb ← FormatLines
        (lit "return static_cast<const " ++ ctype ++ lit ">(Ref(base, " ++
          natStr offset ++ lit ").Ref(base, a));") 1
      pure (sizeOut ++ proto, fd ++ ao ++ fb ++ [lit "\x7d\n\n"])
  else
    if ctype = lit "bool" ∨ ctype = lit "int" then
      let h ← FormatLines (SIMPLE ctype name) depth
      let b ← FormatLines (lit "return Int(" ++ natStr offset ++ lit ");")
        (depth + 1)
      let c ← FormatLines (lit "\x7d") depth
      pure (h ++ b ++ c, [])
    else if endsWithL ctype (lit "_e") ∨ ctype ∈ enum_types then
      let h ← FormatLines (SIMPLE ctype name) depth
      let b ← FormatLines
        (lit "return static_cast<const " ++ ctype ++ lit ">(Int(" ++
          natStr offset ++ lit "));") (depth + 1)
      let c ← FormatLines (lit "\x7d") depth
      pure (h ++ b ++ c, [])
    else if ctype = lit "char*" then
      let h ← FormatLines (POINTER ctype name pt ++ lit " \x7b") depth
      let b ← FormatLines (lit "return Str(base, " ++ natStr offset ++ lit ");")
        (depth + 1)
      let c ← FormatLines (lit "\x7d") depth
      pure (h ++ b ++ c, [])
    else
      let proto ← FormatLines (POINTER ctype name pt ++ lit ";") depth
      let fd ← FormatLines
        (POINTER ctype (type_name ++ lit "::" ++ name) pt ++ lit " \x7b") 0
      let fb ← FormatLines
        (if field.opt then
          lit "return static_cast<const " ++ ctype ++ lit ">(Optional(base, " ++
            natStr offset ++ lit "));"
        else
          lit "return static_cast<const " ++ ctype ++ lit ">(Ref(base, " ++
            natStr offset ++ lit "));") 1
      pure (proto, fd ++ fb ++ [lit "\x7d\n\n"])

/-- The `(field, offset)` argument pairs produced by the loops
`offset = start; for f in fields: VisitField(f, …, offset, …); offset += rwid`
of `VisitConstructor` (`start = 1`) and `VisitProduct` (`start = 0`). -/
def argsFrom (rwid : Nat) : Nat → List Field → List (Field × Nat)
  | _, [] => []
  | offset, f :: fs => (f, offset) :: argsFrom rwid (offset + rwid) fs

/-- `ClassDefVisitor.VisitConstructor` from the source: a constructor with no
fields emits nothing; otherwise a derived class whose fields are visited at
offsets starting at 1 (slot 0 is the tag byte). -/
def VisitConstructor (mod : Module) (rwid : Nat) (pt : Line)
    (enum_types : List Line) (cons : Constructor) (def_name : Line)
    (depth : Nat) : Option (List Line × List Line) :=
  if cons.fields.isEmpty then some ([], [])
  else do
    let h1 ← FormatLines
      (lit "class " ++ cons.name ++ lit " : public " ++ def_name ++ lit " \x7b")
      depth
    let h2 ← FormatLines (lit " public:") depth
    let frs ← (argsFrom rwid 1 cons.fields).mapM
      (fun fo => VisitField mod pt enum_types fo.1 cons.name fo.2 (depth + 1))
    let h3 ← FormatLines (lit "\x7d;") depth
    let h4 ← FormatLines [] depth
    pure (h1 ++ h2 ++ (frs.map Prod.fst).flatten ++ h3 ++ h4,
      (frs.map Prod.snd).flatten)

/-- The enumeration items built by `EmitEnum`: one `name = value` entry per
constructor, numbered from 1 (`i + 1`; "zero is reserved"). -/
def enumItems (types : List Constructor) : List Line :=
  types.enum.map (fun p => p.2.name ++ lit " = " ++ natStr (p.1 + 1))

/-- `ClassDefVisitor.EmitEnum` from the source. -/
def EmitEnum (sum : Sum) (name : Line) (depth : Nat) : Option (List Line) := do
  let l1 ← FormatLines (lit "enum class " ++ name ++ lit "_e : uint8_t \x7b") depth
  let l2 ← FormatLines (List.intercalate (lit ", ") (enumItems sum.types))
    (depth + 1)
  let l3 ← FormatLines (lit "\x7d;") depth
  let l4 ← FormatLines [] depth
  pure (l1 ++ l2 ++ l3 ++ l4)

/-- The attribute-declaration lines of `VisitCompoundSum` / `VisitProduct`:
`assert type in asdl.builtin_types` then `Emit("%s %s;", depth + 1)`. -/
def attrDecls (attributes : List Field) (depth : Nat) : Option (List (List Line)) :=
  attributes.mapM (fun fl =>
    if fl.type ∈ builtin_types then
      FormatLines (fl.type ++ lit " " ++ fl.name ++ lit ";") (depth + 1)
    else none)

/-- `ClassDefVisitor.VisitCompoundSum` from the source: enum, tagged base
class, one derived class per constructor with fields, then the (rudimentary)
shared-attribute declarations — emitted after the last closing brace. -/
def VisitCompoundSum (mod : Module) (rwid : Nat) (pt : Line)
    (enum_types : List Line) (sum : Sum) (name : Line) (depth : Nat) :
    Option (List Line × List Line) := do
  let e ← EmitEnum sum name depth
  let h1 ← FormatLines (lit "class " ++ name ++ lit "_t : public Obj \x7b") depth
  let h2 ← FormatLines (lit " public:") depth
  let h3 ← FormatLines (name ++ lit "_e tag() const \x7b") (depth + 1)
  let h4 ← FormatLines
    (lit "return static_cast<" ++ name ++ lit "_e>(bytes_[0]);") (depth + 2)
  let h5 ← FormatLines (lit "\x7d") (depth + 1)
  let h6 ← FormatLines (lit "\x7d;") depth
  let h7 ← FormatLines [] depth
  let crs ← sum.types.mapM
    (fun t => VisitConstructor mod rwid pt enum_types t (name ++ lit "_t") depth)
  let ars ← attrDecls sum.attributes depth
  pure (e ++ h1 ++ h2 ++ h3 ++ h4 ++ h5 ++ h6 ++ h7 ++
      (crs.map Prod.fst).flatten ++ ars.flatten,
    (crs.map Prod.snd).flatten)

/-- `ClassDefVisitor.VisitProduct` from the source: one untagged class whose
fields are visited at offsets starting at 0; attribute declarations are
emitted inside the class body, before the closing brace. -/
def VisitProductC (mod : Module) (rwid : Nat) (pt : Line)
    (enum_types : List Line) (product : Product) (name : Line) (depth : Nat) :
    Option (List Line × List Line) := do
  let h1 ← FormatLines (lit "class " ++ name ++ lit "_t : public Obj \x7b") depth
  let h2 ← FormatLines (lit " public:") depth
  let frs ← (argsFrom rwid 0 product.fields).mapM
    (fun fo => VisitField mod pt enum_types fo.1 (name ++ lit "_t") fo.2
      (depth + 1))
  let ars ← attrDecls product.attributes depth
  let h3 ← FormatLines (lit "\x7d;") depth
  let h4 ← FormatLines [] depth
  pure (h1 ++ h2 ++ (frs.map Prod.fst).flatten ++ ars.flatten ++ h3 ++ h4,
    (frs.map Prod.snd).flatten)

/-- `ClassDefVisitor.VisitType` at depth 0 (as called by `VisitModule`): a
simple Sum yields only its enum; a compound Sum and a Product yield classes
and possibly deferred bodies. -/
def ClassVisitType (mod : Module) (rwid : Nat) (pt : Line)
    (enum_types : List Line) (t : TypeDef) : Option (List Line × List Line) :=
  match t.value with
  | TypeVal.sum s =>
    if is_simple s then (EmitEnum s t.name 0).map (fun e => (e, []))
    else VisitCompoundSum mod rwid pt enum_types s t.name 0
  | TypeVal.product p => VisitProductC mod rwid pt enum_types p t.name 0

/-- The per-type results of the `ClassDefVisitor` pass, in declaration
order. -/
def classTypeResults (mod : Module) (rwid : Nat) (pt : Line)
    (enum_types : List Line) : Option (List (List Line × List Line)) :=
  mod.dfns.mapM (ClassVisitType mod rwid pt enum_types)

/-- `ClassDefVisitor.VisitModule` from the source: visit every type
definition, then `EmitFooter` flushes the deferred queue in FIFO order. -/
def ClassVisitModule (mod : Module) (rwid : Nat) (pt : Line)
    (enum_types : List Line) : Option (List Line) := do
  let rs ← classTypeResults mod rwid pt enum_types
  pure ((rs.map Prod.fst).flatten ++ (rs.map Prod.snd).flatten)

/-- `ForwardDeclareVisitor.VisitType` from the source: forward declarations
for compound Sums and Products only. -/
def FwdVisitType (t : TypeDef) : Option (List Line) :=
  match t.value with
  | TypeVal.sum s =>
    if is_simple s then some []
    else FormatLines (lit "class " ++ t.name ++ lit "_t;") 0
  | TypeVal.product _ => FormatLines (lit "class " ++ t.name ++ lit "_t;") 0

/-- `ForwardDeclareVisitor.VisitModule` from the source (its `EmitFooter`
emits one blank line). -/
def FwdVisitModule (mod : Module) : Option (List Line) := do
  let rs ← mod.dfns.mapM FwdVisitType
  let ftr ← FormatLines [] 0
  pure (rs.flatten ++ ftr)

/-- `ChainOfVisitors(ForwardDeclareVisitor, ClassDefVisitor).VisitModule`:
the forward-declaration pass runs to completion before the class pass. -/
def chainOutput (mod : Module) (rwid : Nat) (pt : Line)
    (enum_types : List Line) : Option (List Line) := do
  let fwd ← FwdVisitModule mod
  let cls ← ClassVisitModule mod rwid pt enum_types
  pure (fwd ++ cls)

/-- Semantics of the emitted `Obj::Int` primitive (the source epilogue):
`bytes_[n] + (bytes_[n+1] << 8) + (bytes_[n+2] << 16)`, a little-endian read
of 3 bytes.  Bytes are `uint8_t` (< 256), so the C++ `int` arithmetic cannot
overflow and `Nat` models it exactly. -/
def ObjInt (bytes : Nat → Nat) (n : Nat) : Nat :=
  bytes n + (bytes (n + 1)) <<< 8 + (bytes (n + 2)) <<< 16

/-- An apostrophe character. -/
def squote : Char := Char.ofNat 39

/-- A double-quote character. -/
def dquote : Char := Char.ofNat 34

/-- The backslash character. -/
def bslash : Char := '\\'

/-- Lowercase hexadecimal digit, as produced by CPython's `\x` escapes. -/
def hexDigit (n : Nat) : Char :=
  Char.ofNat (if n < 10 then 48 + n else 87 + n)

/-- Inverse of `hexDigit` (a verification aid, used only to prove `pyRepr`
injective). -/
def unhex (c : Char) : Nat :=
  if c.toNat ≤ 57 then c.toNat - 48 else c.toNat - 87

/-- Python 2 `repr` escaping of one byte `c` of a string under the chosen
`quote`: the quote character and the backslash are backslash-escaped; tab,
newline and carriage return use their named escapes; every other byte below
0x20 or at/above 0x7f becomes lowercase `\xhh`; everything else is kept
verbatim.  (The generator runs under Python 2 — its strings are byte
strings — so characters above 255 do not arise in `argv`.) -/
def escapeChar (quote c : Char) : Line :=
  if c = bslash ∨ c = quote then [bslash, c]
  else if c = '\t' then [bslash, 't']
  else if c = '\n' then [bslash, 'n']
  else if c = '\r' then [bslash, 'r']
  else if c.toNat < 0x20 ∨ 0x7f ≤ c.toNat then
    [bslash, 'x', hexDigit (c.toNat / 16 % 16), hexDigit (c.toNat % 16)]
  else [c]

/-- Python 2 `repr` quote choice: double quotes when the string contains a
single quote but no double quote, else single quotes. -/
def reprQuote (s : Line) : Char :=
  if squote ∈ s ∧ ¬ (dquote ∈ s) then dquote else squote

/-- Python 2 `repr` of a (byte) string — the form `%r` produces in the
`Invalid action` diagnostic. -/
def pyRepr (s : Line) : Line :=
  reprQuote s :: (s.flatMap (escapeChar (reprQuote s)) ++ [reprQuote s])

/-- Decoder for a `\x` escape: two hex digits (a verification aid only). -/
def decodeHex : Line → Option (Char × Line)
  | h1 :: h2 :: r2 => some (Char.ofNat (16 * unhex h1 + unhex h2), r2)
  | _ => none

/-- Decoder for the text after a backslash (a verification aid only). -/
def decodeEsc : Line → Option (Char × Line)
  | [] => none
  | c2 :: r =>
    if c2 = 'x' then decodeHex r
    else if c2 = 't' then some ('\t', r)
    else if c2 = 'n' then some ('\n', r)
    else if c2 = 'r' then some ('\r', r)
    else some (c2, r)

/-- Decoder for one `escapeChar`-encoded character (a verification aid only:
it is used to prove that the repr body determines the original string). -/
def decodeOne : Line → Option (Char × Line)
  | [] => none
  | c :: rest => if c = bslash then decodeEsc rest else some (c, rest)

/-- The prologue written by `main` before the visitors run. -/
def prologueChunk (pt : Line) : Line :=
  lit "#include <cstdint>\n\nclass Obj \x7b\n public:\n  // Decode a 3 byte integer from little endian\n  inline int Int(int n) const;\n\n  inline const Obj& Ref(const " ++
    pt ++ lit "* base, int n) const;\n\n  inline const Obj* Optional(const " ++
    pt ++ lit "* base, int n) const;\n\n  // NUL-terminated\n  inline const char* Str(const " ++
    pt ++ lit "* base, int n) const;\n\n protected:\n  uint8_t bytes_[1];  // first is ID; rest are a payload\n\x7d;\n\n"

/-- The epilogue written by `main` after the visitors run, implementing the
primitive operations declared in the prologue. -/
def epilogueChunk (pt : Line) : Line :=
  lit "inline int Obj::Int(int n) const \x7b\n  return bytes_[n] + (bytes_[n+1] << 8) + (bytes_[n+2] << 16);\n\x7d\n\ninline const Obj& Obj::Ref(const " ++
    pt ++ lit "* base, int n) const \x7b\n  int offset = Int(n);\n  return reinterpret_cast<const Obj&>(base[offset]);\n\x7d\n\ninline const Obj* Obj::Optional(const " ++
    pt ++ lit "* base, int n) const \x7b\n  int offset = Int(n);\n  if (offset) \x7b\n    return reinterpret_cast<const Obj*>(base + offset);\n  \x7d else \x7b\n    return nullptr;\n  \x7d\n\x7d\n\ninline const char* Obj::Str(const " ++
    pt ++ lit "* base, int n) const \x7b\n  int offset = Int(n);\n  return reinterpret_cast<const char*>(base + offset);\n\x7d\n"

/-- The outcome of one invocation: standard output chunks, exit status, and
standard-error lines. -/
structure RunResult where
  stdout : List Line
  exit : Nat
  stderr : List Line
deriving DecidableEq

/-- `main` plus the `__main__` handler of the source, for an argument vector
`argv` (element 0 is the program name).  The external schema parser is
abstracted: `mod` stands for `asdl.parse(argv[2])`.  A missing action raises
`RuntimeError('Action required')`; an action other than `cpp` raises
`RuntimeError('Invalid action %r')`; the handler prints one `FATAL:` line to
stderr and exits with status 1 — in both cases before anything is written to
stdout.  A reflow assertion failure inside generation is an `AssertionError`,
which the handler does not catch (the partial output already streamed before
the failure is not modelled; no claim depends on that branch). -/
def gen_cpp_main (argv : List Line) (mod : Module) : RunResult :=
  match argv[1]? with
  | none => ⟨[], 1, [lit "FATAL: Action required" ++ nl]⟩
  | some action =>
    if action = lit "cpp" then
      match chainOutput mod encParams.ref_width encParams.pointer_type
          [lit "Id"] with
      | some out =>
        ⟨[prologueChunk encParams.pointer_type] ++ out ++
          [epilogueChunk encParams.pointer_type], 0, []⟩
      | none => ⟨[prologueChunk encParams.pointer_type], 1,
          [lit "AssertionError"]⟩
    else ⟨[], 1, [lit "FATAL: Invalid action " ++ pyRepr action ++ nl]⟩

/-! ### Concrete demonstration schemas used by the witnesses -/

/-- A module with one simple Sum `color`. -/
def demoSimpleMod : Module :=
  ⟨[⟨lit "color", TypeVal.sum ⟨[⟨lit "Red", []⟩, ⟨lit "Green", []⟩], []⟩⟩]⟩

/-- An optional field of the simple-Sum type `color`. -/
def demoOptField : Field := ⟨lit "c", lit "color", false, true⟩

/-- A singular builtin integer field. -/
def demoIntField : Field := ⟨lit "n", lit "int", false, false⟩

/-- A repeated builtin integer field. -/
def demoSeqIntField : Field := ⟨lit "xs", lit "int", true, false⟩

/-- A module with one compound Sum `word`. -/
def demoCompoundMod : Module :=
  ⟨[⟨lit "word", TypeVal.sum ⟨[⟨lit "Simple", [demoIntField]⟩], []⟩⟩]⟩

/-- A required singular field of the compound type `word`. -/
def demoObjField : Field := ⟨lit "w", lit "word", false, false⟩

/-- A repeated field of the compound type `word`. -/
def demoSeqObjField : Field := ⟨lit "ws", lit "word", true, false⟩

/-- The inline output of `VisitField` for `demoSeqIntField` at offset 1,
depth 1 (used by a witness). -/
def demoSeqIntOut : List Line :=
  [lit "  inline int xs_size(const uint32_t* base) const \x7b\n",
   lit "    return Ref(base, 1).Int(0);\n",
   lit "  \x7d\n",
   lit "  inline const int xs(const uint32_t* base, int index) const \x7b\n",
   lit "    int a = (index+1) * 3;\n",
   lit "    return Ref(base, 1).Int(a);\n",
   lit "  \x7d\n"]

/-- The chain output for `demoSimpleMod` (used by a witness). -/
def demoChainOut : List Line :=
  [lit "\n",
   lit "enum class color_e : uint8_t \x7b\n",
   lit "  Red = 1, Green = 2\n",
   lit "\x7d;\n",
   lit "\n"]

/-- A compound Sum with one field-bearing constructor and one builtin-scalar
attribute (used by a witness). -/
def demoAttrSum : Sum :=
  ⟨[⟨lit "Simple", [demoIntField]⟩], [⟨lit "span", lit "int", false, false⟩]⟩

/-- The output of `VisitCompoundSum` for `demoAttrSum` named `word` at depth
0 (used by a witness). -/
def demoAttrSumOut : List Line :=
  [lit "enum class word_e : uint8_t \x7b\n",
   lit "  Simple = 1\n",
   lit "\x7d;\n",
   lit "\n",
   lit "class word_t : public Obj \x7b\n",
   lit " public:\n",
   lit "  word_e tag() const \x7b\n",
   lit "    return static_cast<word_e>(bytes_[0]);\n",
   lit "  \x7d\n",
   lit "\x7d;\n",
   lit "\n",
   lit "class Simple : public word_t \x7b\n",
   lit " public:\n",
   lit "  inline int n() const \x7b\n",
   lit "    return Int(1);\n",
   lit "  \x7d\n",
   lit "\x7d;\n",
   lit "\n",
   lit "  int span;\n"]

/-! ## Theorems -/

/-- Dropping past an appended prefix. -/
theorem drop_append_len (xs ys : Line) (k : Nat) :
    (xs ++ ys).drop (xs.length + k) = ys.drop k := by
  induction xs with
  | nil => simp
  | cons a t ih => simp [Nat.succ_add, ih]

/-- A list extended by a fixed tail `c` never equals a constant `k` whose
matching suffix differs from `c`. -/
theorem append_fixed_ne (c k : Line) (h : k.drop (k.length - c.length) ≠ c)
    (X : Line) : X ++ c ≠ k := by
  intro he
  apply h
  rw [← he]
  have h1 : (X ++ c).length - c.length = X.length := by simp
  rw [h1, List.drop_left]

/-- `endswith` holds for an appended suffix. -/
theorem endsWith_append_self (X s : Line) : endsWithL (X ++ s) s = true := by
  unfold endsWithL
  have h1 : (X ++ s).length - s.length = X.length := by simp
  rw [h1, List.drop_left]
  simp

/-- `endswith '_e'` fails for a fixed appended tail `c` (of length ≥ 2) whose
last two characters are not `_e`. -/
theorem endsWith_append_fixed_false (c : Line) (h2 : 2 ≤ c.length)
    (h : c.drop (c.length - 2) ≠ lit "_e") (X : Line) :
    endsWithL (X ++ c) (lit "_e") = false := by
  unfold endsWithL
  have hl : (X ++ c).length - (lit "_e").length = X.length + (c.length - 2) := by
    have : (lit "_e").length = 2 := by decide
    rw [this]
    simp only [List.length_append]
    omega
  rw [hl, drop_append_len]
  simpa using h

/-- C8: a line that fits within the column budget is returned unchanged as a
single line; consequently reflowing each line of an already-reflowed result
whose lines all fit the budget, at the same depth, returns every line
unchanged (reflow is idempotent on such results). -/
theorem reflow_fits_unchanged :
    (∀ (s : Line) (d : Nat), (s.length : Int) ≤ budget d →
      ReflowLines s d = some [s]) ∧
    (∀ (s : Line) (d : Nat) (lines : List Line), ReflowLines s d = some lines →
      (∀ l ∈ lines, (l.length : Int) ≤ budget d) →
      lines.map (fun l => ReflowLines l d) = lines.map (fun l => some [l])) := by
  have base : ∀ (s : Line) (d : Nat), (s.length : Int) ≤ budget d →
      ReflowLines s d = some [s] := by
    intro s d h
    unfold ReflowLines
    by_cases hlt : (s.length : Int) < (MAX_COL : Int) - (d : Int) * (TABSIZE : Int)
    · simp [hlt]
    · have heq : (s.length : Int) = (MAX_COL : Int) - (d : Int) * (TABSIZE : Int) := by
        have h2 : (s.length : Int) ≤ (MAX_COL : Int) - (d : Int) * (TABSIZE : Int) := h
        omega
      simp only [hlt, if_false]
      unfold reflowLoop
      simp [heq]
  refine ⟨base, ?_⟩
  intro s d lines _ hfit
  have : ∀ l ∈ lines, ReflowLines l d = some [l] := fun l hl => base l d (hfit l hl)
  exact List.map_congr_left this

/-- Closed witness for `reflow_fits_unchanged` at a concrete input. -/
theorem reflow_fits_unchanged_witness :
    ReflowLines (lit "int x;") 0 = some [lit "int x;"] := by
  have h : ((lit "int x;").length : Int) ≤ budget 0 := by decide
  exact reflow_fits_unchanged.1 (lit "int x;") 0 h

/-- C6 (counterexample): the claim says every line that exceeds the budget and
has no space break point within the budget makes reflow fail, without
exception.  This concrete line (seven copies of `GeneratorExp`, 84 characters,
no space anywhere) exceeds the depth-0 budget of 80 and has no break point,
yet `ReflowLines` succeeds on it because of the special case
`if i == -1 and 'GeneratorExp' in cur: i = size + 3`. -/
theorem reflow_genexp_counterexample :
    (((lit "GeneratorExpGeneratorExpGeneratorExpGeneratorExpGeneratorExpGeneratorExpGeneratorExp").length : Int) > budget 0) ∧
    rfindSpace (lit "GeneratorExpGeneratorExpGeneratorExpGeneratorExpGeneratorExpGeneratorExpGeneratorExp") (budget 0) = -1 ∧
    ReflowLines (lit "GeneratorExpGeneratorExpGeneratorExpGeneratorExpGeneratorExpGeneratorExpGeneratorExp") 0 ≠ none := by
  refine ⟨by decide, by decide, ?_⟩
  decide

/-- C6 (amended): for every line that exceeds the column budget, contains no
space break point within the budget, and does not contain the substring
`GeneratorExp`, reflowing fails (the internal-invariant assertion fires and no
lines are returned). -/
theorem reflow_no_breakpoint_fails (s : Line) (d : Nat)
    (hlong : (s.length : Int) > budget d)
    (hnosp : rfindSpace s (budget d) = -1)
    (hnogen : hasSub GENEXP s = false) :
    ReflowLines s d = none := by
  unfold ReflowLines
  have hb : budget d = (MAX_COL : Int) - (d : Int) * (TABSIZE : Int) := rfl
  have hnlt : ¬ ((s.length : Int) < (MAX_COL : Int) - (d : Int) * (TABSIZE : Int)) := by
    omega
  simp only [hnlt, if_false]
  unfold reflowLoop
  have hgt : ((s.length : Int) > (MAX_COL : Int) - (d : Int) * (TABSIZE : Int)) := by
    omega
  have hsp : rfindSpace s ((MAX_COL : Int) - (d : Int) * (TABSIZE : Int)) = -1 := by
    rw [← hb]; exact hnosp
  simp [hgt, hsp, hnogen]

/-- Closed witness for `reflow_no_breakpoint_fails`: 81 characters, no space,
no `GeneratorExp`, depth 0. -/
theorem reflow_no_breakpoint_fails_witness :
    ReflowLines (List.replicate 81 'a') 0 = none :=
  reflow_no_breakpoint_fails (List.replicate 81 'a') 0 (by decide) (by decide)
    (by decide)

/-- C9: for an optional field whose (non-builtin) type name resolves to a
simple Sum, `GetCppType` returns the bare enumeration type — the simple-Sum
case takes precedence over the optional case — and the singular accessor
emitted by `VisitField` is the plain integer read reinterpreted as the enum,
with an empty deferred queue: the `Optional` (0-means-absent) resolution is
never applied to such a field. -/
theorem optional_simple_sum_enum (mod : Module) (f : Field) (s : Sum)
    (hb : _BUILTINS f.type = none)
    (hl : mod.typesLookup f.type = some (TypeVal.sum s))
    (hs : is_simple s = true) (_ho : f.opt = true) (hseq : f.seq = false)
    (pt : Line) (et : List Line) (tn : Line) (off d : Nat) :
    GetCppType mod f = some (f.type ++ lit "_e") ∧
    VisitField mod pt et f tn off d = (do
      let h ← FormatLines (SIMPLE (f.type ++ lit "_e") f.name) d
      let b ← FormatLines
        (lit "return static_cast<const " ++ (f.type ++ lit "_e") ++
          lit ">(Int(" ++ natStr off ++ lit "));") (d + 1)
      let c ← FormatLines (lit "\x7d") d
      pure (h ++ b ++ c, ([] : List Line))) := by
  have h1 : GetCppType mod f = some (f.type ++ lit "_e") := by
    unfold GetCppType
    rw [hb, hl]
    simp [hs]
  refine ⟨h1, ?_⟩
  unfold VisitField
  rw [h1]
  have hne : ¬ (f.type ++ lit "_e" = lit "bool" ∨ f.type ++ lit "_e" = lit "int") := by
    rintro (h | h)
    · exact append_fixed_ne (lit "_e") (lit "bool") (by decide) f.type h
    · exact append_fixed_ne (lit "_e") (lit "int") (by decide) f.type h
  have hew : endsWithL (f.type ++ lit "_e") (lit "_e") = true :=
    endsWith_append_self _ _
  simp [hseq, hne, hew]

/-- Closed witness for `optional_simple_sum_enum` at a concrete schema. -/
theorem optional_simple_sum_enum_witness :
    GetCppType demoSimpleMod demoOptField =
      some (demoOptField.type ++ lit "_e") ∧
    VisitField demoSimpleMod (lit "uint32_t") [lit "Id"] demoOptField
        (lit "T") 1 1 = (do
      let h ← FormatLines (SIMPLE (demoOptField.type ++ lit "_e")
        demoOptField.name) 1
      let b ← FormatLines
        (lit "return static_cast<const " ++ (demoOptField.type ++ lit "_e") ++
          lit ">(Int(" ++ natStr 1 ++ lit "));") (1 + 1)
      let c ← FormatLines (lit "\x7d") 1
      pure (h ++ b ++ c, ([] : List Line))) :=
  optional_simple_sum_enum demoSimpleMod demoOptField
    ⟨[⟨lit "Red", []⟩, ⟨lit "Green", []⟩], []⟩ (by decide) (by decide)
    (by decide) (by decide) (by decide) (lit "uint32_t") [lit "Id"] (lit "T") 1 1

/-- C2: for a singular boolean or integer field at offset `k`, the accessor
emitted by `VisitField` has body `return Int(k);` — a call of the emitted
integer-decode primitive at the field's offset — and that primitive
(`Obj::Int` of the epilogue) reads exactly `ref_width` bytes starting at its
argument and combines them as a little-endian integer. -/
theorem int_field_reads_ref_width (mod : Module) (f : Field) (ct : Line)
    (hg : GetCppType mod f = some ct)
    (hct : ct = lit "bool" ∨ ct = lit "int") (hseq : f.seq = false)
    (pt : Line) (et : List Line) (tn : Line) (k d : Nat) :
    VisitField mod pt et f tn k d = (do
      let h ← FormatLines (SIMPLE ct f.name) d
      let b ← FormatLines (lit "return Int(" ++ natStr k ++ lit ");") (d + 1)
      let c ← FormatLines (lit "\x7d") d
      pure (h ++ b ++ c, ([] : List Line))) ∧
    (∀ by1 by2 : Nat → Nat,
      (∀ i, i < encParams.ref_width → by1 (k + i) = by2 (k + i)) →
      ObjInt by1 k = ObjInt by2 k) ∧
    (∀ by1 : Nat → Nat,
      ObjInt by1 k =
        ∑ i ∈ Finset.range encParams.ref_width, by1 (k + i) * 256 ^ i) := by
  refine ⟨?_, ?_, ?_⟩
  · unfold VisitField
    rw [hg]
    rcases hct with h | h <;> subst h <;> simp [hseq]
  · intro by1 by2 hag
    have h0 : by1 k = by2 k := hag 0 (by decide)
    have h1 : by1 (k + 1) = by2 (k + 1) := hag 1 (by decide)
    have h2 : by1 (k + 2) = by2 (k + 2) := hag 2 (by decide)
    unfold ObjInt
    rw [h0, h1, h2]
  · intro by1
    have hrw : encParams.ref_width = 3 := rfl
    rw [hrw]
    simp [ObjInt, Finset.sum_range_succ, Nat.shiftLeft_eq]

/-- Closed witness for `int_field_reads_ref_width` at a concrete field. -/
theorem int_field_reads_ref_width_witness :
    VisitField demoSimpleMod (lit "uint32_t") [lit "Id"] demoIntField
        (lit "T") 4 1 = (do
      let h ← FormatLines (SIMPLE (lit "int") demoIntField.name) 1
      let b ← FormatLines (lit "return Int(" ++ natStr 4 ++ lit ");") (1 + 1)
      let c ← FormatLines (lit "\x7d") 1
      pure (h ++ b ++ c, ([] : List Line))) ∧
    (∀ by1 by2 : Nat → Nat,
      (∀ i, i < encParams.ref_width → by1 (4 + i) = by2 (4 + i)) →
      ObjInt by1 4 = ObjInt by2 4) ∧
    (∀ by1 : Nat → Nat,
      ObjInt by1 4 =
        ∑ i ∈ Finset.range encParams.ref_width, by1 (4 + i) * 256 ^ i) :=
  int_field_reads_ref_width demoSimpleMod demoIntField (lit "int") (by decide)
    (Or.inr rfl) (by decide) (lit "uint32_t") [lit "Id"] (lit "T") 4 1

/-- C5: the enumeration emitted for a Sum (`EmitEnum`, built from
`enumItems`) has exactly one named value per constructor; the i-th
constructor in declaration order is assigned the value `i + 1` (so values run
1..N), and the value 0 is never assigned. -/
theorem enum_values_one_based (types : List Constructor) :
    (enumItems types).length = types.length ∧
    ∀ i (h : i < types.length),
      (enumItems types)[i]? =
        some (types[i].name ++ lit " = " ++ natStr (i + 1)) ∧ i + 1 ≠ 0 := by
  constructor
  · simp [enumItems]
  · intro i h
    refine ⟨?_, by omega⟩
    simp [enumItems, List.getElem?_map, List.getElem?_enum, h,
      List.getElem?_eq_getElem]

/-- Closed witness for `enum_values_one_based`: Scenario A, a Sum with
constructors `X`, `Y` gets `X = 1` and `Y = 2`. -/
theorem enum_values_one_based_witness :
    (enumItems [⟨lit "X", []⟩, ⟨lit "Y", []⟩]).length = 2 ∧
    ((enumItems [⟨lit "X", []⟩, ⟨lit "Y", []⟩])[1]? =
      some ((lit "Y") ++ lit " = " ++ natStr 2) ∧ 1 + 1 ≠ 0) :=
  ⟨(enum_values_one_based [⟨lit "X", []⟩, ⟨lit "Y", []⟩]).1,
   (enum_values_one_based [⟨lit "X", []⟩, ⟨lit "Y", []⟩]).2 1 (by decide)⟩

/-- The `(field, offset)` pairs of the visit loops, by index. -/
theorem argsFrom_getElem? (rwid : Nat) (fields : List Field) :
    ∀ (start k : Nat) (h : k < fields.length),
      (argsFrom rwid start fields)[k]? = some (fields[k], start + k * rwid) := by
  induction fields with
  | nil => intro start k h; simp at h
  | cons f fs ih =>
    intro start k h
    cases k with
    | zero => simp [argsFrom]
    | succ k2 =>
      have h2 : k2 < fs.length := by simpa using h
      simp only [argsFrom, List.getElem?_cons_succ, List.getElem_cons_succ]
      rw [ih (start + rwid) k2 h2]
      congr 2
      ring

/-- C1: in the visit loops of `VisitConstructor` and `VisitProduct` (whose
`(field, offset)` call arguments are `argsFrom rwid 1` resp. `argsFrom rwid
0`), every field gets exactly one accessor visit, the offset passed for the
first field is 1 for a sum-variant class and 0 for a product class, and the
offsets passed for consecutive fields differ by exactly `ref_width`;
moreover `VisitConstructor` (for a constructor with fields) and
`VisitProduct` consume exactly those argument lists. -/
theorem accessor_offsets (rwid : Nat) (fields : List Field) :
    ((argsFrom rwid 1 fields).length = fields.length ∧
     (argsFrom rwid 0 fields).length = fields.length) ∧
    (0 < fields.length →
      ∃ p q, (argsFrom rwid 1 fields)[0]? = some p ∧ p.2 = 1 ∧
             (argsFrom rwid 0 fields)[0]? = some q ∧ q.2 = 0) ∧
    (∀ k, k + 1 < fields.length →
      ∃ p q p2 q2,
        (argsFrom rwid 1 fields)[k]? = some p ∧
        (argsFrom rwid 1 fields)[k + 1]? = some q ∧ q.2 = p.2 + rwid ∧
        (argsFrom rwid 0 fields)[k]? = some p2 ∧
        (argsFrom rwid 0 fields)[k + 1]? = some q2 ∧ q2.2 = p2.2 + rwid) ∧
    (∀ (mod : Module) (pt : Line) (et : List Line) (cons : Constructor)
        (dn : Line) (d : Nat), cons.fields.isEmpty = false →
      VisitConstructor mod rwid pt et cons dn d = (do
        let h1 ← FormatLines
          (lit "class " ++ cons.name ++ lit " : public " ++ dn ++ lit " \x7b") d
        let h2 ← FormatLines (lit " public:") d
        let frs ← (argsFrom rwid 1 cons.fields).mapM
          (fun fo => VisitField mod pt et fo.1 cons.name fo.2 (d + 1))
        let h3 ← FormatLines (lit "\x7d;") d
        let h4 ← FormatLines [] d
        pure (h1 ++ h2 ++ (frs.map Prod.fst).flatten ++ h3 ++ h4,
          (frs.map Prod.snd).flatten))) ∧
    (∀ (mod : Module) (pt : Line) (et : List Line) (product : Product)
        (name : Line) (d : Nat),
      VisitProductC mod rwid pt et product name d = (do
        let h1 ← FormatLines
          (lit "class " ++ name ++ lit "_t : public Obj \x7b") d
        let h2 ← FormatLines (lit " public:") d
        let frs ← (argsFrom rwid 0 product.fields).mapM
          (fun fo => VisitField mod pt et fo.1 (name ++ lit "_t") fo.2 (d + 1))
        let ars ← attrDecls product.attributes d
        let h3 ← FormatLines (lit "\x7d;") d
        let h4 ← FormatLines [] d
        pure (h1 ++ h2 ++ (frs.map Prod.fst).flatten ++ ars.flatten ++ h3 ++ h4,
          (frs.map Prod.snd).flatten))) := by
  have hlen : ∀ start : Nat, (argsFrom rwid start fields).length = fields.length := by
    intro start
    induction fields generalizing start with
    | nil => simp [argsFrom]
    | cons f fs ih => simp [argsFrom, ih]
  refine ⟨⟨hlen 1, hlen 0⟩, ?_, ?_, ?_, ?_⟩
  · intro h
    exact ⟨_, _, argsFrom_getElem? rwid fields 1 0 h, by simp,
      argsFrom_getElem? rwid fields 0 0 h, by simp⟩
  · intro k h
    have hk : k < fields.length := by omega
    refine ⟨_, _, _, _, argsFrom_getElem? rwid fields 1 k hk,
      argsFrom_getElem? rwid fields 1 (k + 1) h, by ring,
      argsFrom_getElem? rwid fields 0 k hk,
      argsFrom_getElem? rwid fields 0 (k + 1) h, by ring⟩
  · intro mod pt et cons dn d hne
    unfold VisitConstructor
    rw [hne]
    rfl
  · intro mod pt et product name d
    rfl

/-- Closed witness for `accessor_offsets` at a concrete field list and
constructor. -/
theorem accessor_offsets_witness :
    (∃ p q, (argsFrom 3 1 [demoIntField, demoOptField])[0]? = some p ∧
      p.2 = 1 ∧
      (argsFrom 3 0 [demoIntField, demoOptField])[0]? = some q ∧ q.2 = 0) ∧
    (∃ p q p2 q2,
      (argsFrom 3 1 [demoIntField, demoOptField])[0]? = some p ∧
      (argsFrom 3 1 [demoIntField, demoOptField])[0 + 1]? = some q ∧
      q.2 = p.2 + 3 ∧
      (argsFrom 3 0 [demoIntField, demoOptField])[0]? = some p2 ∧
      (argsFrom 3 0 [demoIntField, demoOptField])[0 + 1]? = some q2 ∧
      q2.2 = p2.2 + 3) :=
  ⟨(accessor_offsets 3 [demoIntField, demoOptField]).2.1 (by decide),
   (accessor_offsets 3 [demoIntField, demoOptField]).2.2.1 0 (by decide)⟩

/-- Every escape chunk produced by `escapeChar` is nonempty. -/
theorem escapeChar_ne_nil (q c : Char) : escapeChar q c ≠ [] := by
  unfold escapeChar
  split_ifs <;> simp

/-- `unhex` inverts `hexDigit` on hexadecimal digits. -/
theorem unhex_hexDigit {n : Nat} (h : n < 16) : unhex (hexDigit n) = n := by
  have hfin : ∀ m : Fin 16, unhex (hexDigit m.val) = m.val := by decide
  exact hfin ⟨n, h⟩

/-- `decodeOne` inverts `escapeChar` for bytes, under either repr quote. -/
theorem decode_escape (q : Char) (hqv : q = squote ∨ q = dquote) (c : Char)
    (hc : c.toNat < 256) (rest : Line) :
    decodeOne (escapeChar q c ++ rest) = some (c, rest) := by
  unfold escapeChar
  split_ifs with h1 h2 h3 h4 h5
  · rcases h1 with h1 | h1
    · subst h1
      simp only [List.cons_append, List.nil_append, decodeOne, decodeEsc,
        if_true]
      rw [if_neg (by decide), if_neg (by decide), if_neg (by decide),
        if_neg (by decide)]
    · subst h1
      rcases hqv with h | h <;> subst h <;>
        (simp only [List.cons_append, List.nil_append, decodeOne, decodeEsc,
           if_true];
         rw [if_neg (by decide), if_neg (by decide), if_neg (by decide),
           if_neg (by decide)])
  · subst h2
    simp only [List.cons_append, List.nil_append, decodeOne, decodeEsc,
      if_true]
    rw [if_neg (by decide)]
  · subst h3
    simp only [List.cons_append, List.nil_append, decodeOne, decodeEsc,
      if_true]
    rw [if_neg (by decide), if_neg (by decide)]
  · subst h4
    simp only [List.cons_append, List.nil_append, decodeOne, decodeEsc,
      if_true]
    rw [if_neg (by decide), if_neg (by decide), if_neg (by decide)]
  · simp only [List.cons_append, List.nil_append, decodeOne, decodeEsc,
      decodeHex, if_true]
    have e1 : unhex (hexDigit (c.toNat / 16 % 16)) = c.toNat / 16 % 16 :=
      unhex_hexDigit (by omega)
    have e2 : unhex (hexDigit (c.toNat % 16)) = c.toNat % 16 :=
      unhex_hexDigit (by omega)
    rw [e1, e2]
    have hn : 16 * (c.toNat / 16 % 16) + c.toNat % 16 = c.toNat := by omega
    rw [hn, Char.ofNat_toNat]
  · have hcb : ¬ c = bslash := fun hh => h1 (Or.inl hh)
    simp only [List.cons_append, List.nil_append, decodeOne]
    rw [if_neg hcb]

/-- The escaped body determines the original byte string. -/
theorem flatMap_escape_inj (q : Char) (hqv : q = squote ∨ q = dquote) :
    ∀ (a b : Line), (∀ c ∈ a, c.toNat < 256) → (∀ c ∈ b, c.toNat < 256) →
      a.flatMap (escapeChar q) = b.flatMap (escapeChar q) → a = b := by
  intro a
  induction a with
  | nil =>
    intro b _ _ h
    cases b with
    | nil => rfl
    | cons c2 b2 =>
      exfalso
      rw [List.flatMap_nil, List.flatMap_cons] at h
      rcases List.append_eq_nil.mp h.symm with ⟨h1, -⟩
      exact escapeChar_ne_nil q c2 h1
  | cons c a2 ih =>
    intro b ha hb h
    cases b with
    | nil =>
      exfalso
      rw [List.flatMap_cons, List.flatMap_nil] at h
      rcases List.append_eq_nil.mp h with ⟨h1, -⟩
      exact escapeChar_ne_nil q c h1
    | cons c2 b2 =>
      rw [List.flatMap_cons, List.flatMap_cons] at h
      have hd := congrArg decodeOne h
      rw [decode_escape q hqv c (ha c (List.mem_cons_self c a2))
          (a2.flatMap (escapeChar q)),
        decode_escape q hqv c2 (hb c2 (List.mem_cons_self c2 b2))
          (b2.flatMap (escapeChar q))] at hd
      simp only [Option.some.injEq, Prod.mk.injEq] at hd
      obtain ⟨hcc, hrest⟩ := hd
      rw [hcc, ih b2 (fun x hx => ha x (List.mem_cons_of_mem c hx))
        (fun x hx => hb x (List.mem_cons_of_mem c2 hx)) hrest]

/-- A map whose chunks are singletons is the identity. -/
theorem flatMap_id_of (f : Char → Line) :
    ∀ (a : Line), (∀ c ∈ a, f c = [c]) → a.flatMap f = a := by
  intro a
  induction a with
  | nil => intro _; simp
  | cons c a2 ih =>
    intro h
    rw [List.flatMap_cons, h c (List.mem_cons_self c a2),
      ih (fun x hx => h x (List.mem_cons_of_mem c hx))]
    rfl

/-- C7: with no action argument, or with an action other than `cpp`, the run
terminates with exit status 1 after exactly one `FATAL:` diagnostic line on
the error stream and writes nothing to standard output; for an unrecognized
action the diagnostic names the invalid action: it embeds the Python `repr`
of the action, `repr` on byte strings is injective (so the diagnostic
uniquely identifies the action), and when the action needs no escaping the
diagnostic contains it verbatim. -/
theorem bad_action_fatal :
    (∀ (argv : List Line) (mod : Module), argv[1]? = none →
      gen_cpp_main argv mod =
        ⟨[], 1, [lit "FATAL: Action required" ++ nl]⟩) ∧
    (∀ (argv : List Line) (mod : Module) (a : Line), argv[1]? = some a →
      a ≠ lit "cpp" →
      gen_cpp_main argv mod =
        ⟨[], 1, [lit "FATAL: Invalid action " ++ pyRepr a ++ nl]⟩) ∧
    (∀ (a b : Line), (∀ c ∈ a, c.toNat < 256) → (∀ c ∈ b, c.toNat < 256) →
      pyRepr a = pyRepr b → a = b) ∧
    (∀ (argv : List Line) (mod : Module) (a : Line), argv[1]? = some a →
      a ≠ lit "cpp" →
      (∀ c ∈ a, c ≠ squote ∧ c ≠ bslash ∧ 0x20 ≤ c.toNat ∧ c.toNat < 0x7f) →
      ∃ pre suf, (gen_cpp_main argv mod).stderr = [pre ++ a ++ suf]) := by
  have hinvalid : ∀ (argv : List Line) (mod : Module) (a : Line),
      argv[1]? = some a → a ≠ lit "cpp" →
      gen_cpp_main argv mod =
        ⟨[], 1, [lit "FATAL: Invalid action " ++ pyRepr a ++ nl]⟩ := by
    intro argv mod a h hne
    unfold gen_cpp_main
    rw [h]
    simp [hne]
  refine ⟨?_, hinvalid, ?_, ?_⟩
  · intro argv mod h
    unfold gen_cpp_main
    rw [h]
  · intro a b ha hb h
    unfold pyRepr at h
    injection h with h1 h2
    rw [← h1] at h2
    have h3 := List.append_cancel_right h2
    have hqv : reprQuote a = squote ∨ reprQuote a = dquote := by
      unfold reprQuote
      split
      · exact Or.inr rfl
      · exact Or.inl rfl
    exact flatMap_escape_inj (reprQuote a) hqv a b ha hb h3
  · intro argv mod a h hne hplain
    have hq : reprQuote a = squote := by
      unfold reprQuote
      rw [if_neg]
      rintro ⟨hsq, -⟩
      exact absurd rfl (hplain squote hsq).1
    have hesc : ∀ c ∈ a, escapeChar squote c = [c] := by
      intro c hcmem
      obtain ⟨hs, hbsl, hlo, hhi⟩ := hplain c hcmem
      unfold escapeChar
      rw [if_neg (by rintro (hh | hh); exacts [hbsl hh, hs hh]),
        if_neg (by intro hh; subst hh; exact absurd hlo (by decide)),
        if_neg (by intro hh; subst hh; exact absurd hlo (by decide)),
        if_neg (by intro hh; subst hh; exact absurd hlo (by decide)),
        if_neg (by rintro (hh | hh) <;> omega)]
    have hflat : a.flatMap (escapeChar squote) = a := flatMap_id_of _ a hesc
    refine ⟨lit "FATAL: Invalid action " ++ [squote], [squote] ++ nl, ?_⟩
    rw [hinvalid argv mod a h hne]
    unfold pyRepr
    rw [hq, hflat]
    simp [List.append_assoc]

/-- Closed witness for `bad_action_fatal`: a run with no action, a run with
the unrecognized action `foo`, the repr-injectivity instance at a
backslash-containing action, and the verbatim containment for `foo`. -/
theorem bad_action_fatal_witness :
    (gen_cpp_main [lit "gen_cpp.py"] demoSimpleMod =
      ⟨[], 1, [lit "FATAL: Action required" ++ nl]⟩) ∧
    (gen_cpp_main [lit "gen_cpp.py", lit "foo"] demoSimpleMod =
      ⟨[], 1, [lit "FATAL: Invalid action " ++ pyRepr (lit "foo") ++ nl]⟩) ∧
    (lit "fo\\o" = lit "fo\\o") ∧
    (∃ pre suf,
      (gen_cpp_main [lit "gen_cpp.py", lit "foo"] demoSimpleMod).stderr =
        [pre ++ lit "foo" ++ suf]) :=
  ⟨bad_action_fatal.1 [lit "gen_cpp.py"] demoSimpleMod rfl,
   bad_action_fatal.2.1 [lit "gen_cpp.py", lit "foo"] demoSimpleMod
     (lit "foo") rfl (by decide),
   bad_action_fatal.2.2.1 (lit "fo\\o") (lit "fo\\o") (by decide)
     (by decide) rfl,
   bad_action_fatal.2.2.2 [lit "gen_cpp.py", lit "foo"] demoSimpleMod
     (lit "foo") rfl (by decide) (by decide)⟩

/-- Inversion for the attribute-declaration block: success means every
attribute type passed the builtin check, and the block holds exactly one
formatted declaration per attribute, in declaration order. -/
theorem attrDecls_spec (attributes : List Field) (d : Nat)
    (ars : List (List Line)) (h : attrDecls attributes d = some ars) :
    ars.length = attributes.length ∧
    (∀ fl ∈ attributes, fl.type ∈ builtin_types) ∧
    (∀ k (hk : k < attributes.length),
      ∃ ch, ars[k]? = some ch ∧
        FormatLines (attributes[k].type ++ lit " " ++ attributes[k].name ++
          lit ";") (d + 1) = some ch) := by
  induction attributes generalizing ars with
  | nil =>
    unfold attrDecls at h
    simp only [List.mapM_nil, Option.pure_def, Option.some.injEq] at h
    subst h
    refine ⟨rfl, by simp, ?_⟩
    intro k hk
    simp at hk
  | cons a rest ih =>
    unfold attrDecls at h
    rw [List.mapM_cons] at h
    simp only [bind, Option.bind_eq_some, Option.pure_def, Option.some.injEq] at h
    obtain ⟨b, hb, bs, hbs, hcons⟩ := h
    subst hcons
    by_cases hmem : a.type ∈ builtin_types
    · rw [if_pos hmem] at hb
      have hrest := ih bs hbs
      refine ⟨by simp [hrest.1], ?_, ?_⟩
      · intro fl hfl
        rcases List.mem_cons.mp hfl with hfl | hfl
        · subst hfl; exact hmem
        · exact hrest.2.1 fl hfl
      · intro k hk
        cases k with
        | zero => exact ⟨b, by simp, hb⟩
        | succ k2 =>
          have hk2 : k2 < rest.length := by simpa using hk
          obtain ⟨ch, hch1, hch2⟩ := hrest.2.2 k2 hk2
          exact ⟨ch, by simpa using hch1, by simpa using hch2⟩
    · rw [if_neg hmem] at hb
      exact absurd hb (by simp)

/-- C3: for every repeated field, the emitted size accessor reads the element
count as the integer at position 0 of the array reached via the field's
offset (`return Ref(base, offset).Int(0);`), and the indexed accessor
computes the element position with the statement `int a = (index+1) * 3;` —
the same constant stride 3 for every element kind (inline boolean/integer,
enumeration and string accessors at the field's depth, and the deferred
object-reference accessor at footer depth 1). -/
theorem repeated_field_stride (mod : Module) (pt : Line) (et : List Line)
    (f : Field) (tn : Line) (off d : Nat) (out ftr : List Line)
    (hseq : f.seq = true)
    (h : VisitField mod pt et f tn off d = some (out, ftr)) :
    (∃ e1 e2 e3 rest,
      FormatLines (sizeHeader f.name pt) d = some e1 ∧
      FormatLines (sizeBody off) (d + 1) = some e2 ∧
      FormatLines (lit "\x7d") d = some e3 ∧
      out = e1 ++ e2 ++ e3 ++ rest) ∧
    (∃ dx m pre suf, (dx = d + 1 ∨ dx = 1) ∧
      FormatLines ARRAY_OFFSET dx = some m ∧
      out ++ ftr = pre ++ m ++ suf) := by
  unfold VisitField at h
  simp only [bind, Option.bind_eq_some] at h
  obtain ⟨ct, _hg, h⟩ := h
  rw [hseq] at h
  simp only [if_true] at h
  simp only [bind, Option.bind_eq_some] at h
  obtain ⟨e1, he1, e2, he2, e3, he3, h⟩ := h
  by_cases h1 : ct = lit "bool" ∨ ct = lit "int"
  · rw [if_pos h1] at h
    simp only [bind, Option.bind_eq_some, Option.pure_def,
      Option.some.injEq, Prod.mk.injEq] at h
    obtain ⟨hh, hhh, m, hm, b, hb, c, hc, hout, hftr⟩ := h
    refine ⟨⟨e1, e2, e3, hh ++ m ++ b ++ c, he1, he2, he3, ?_⟩,
      ⟨d + 1, m, e1 ++ e2 ++ e3 ++ hh, b ++ c ++ ftr, Or.inl rfl, hm, ?_⟩⟩
    · rw [← hout]; simp [List.append_assoc]
    · rw [← hout, ← hftr]; simp [List.append_assoc]
  · rw [if_neg h1] at h
    by_cases h2 : endsWithL ct (lit "_e") = true
    · rw [if_pos h2] at h
      simp only [bind, Option.bind_eq_some, Option.pure_def,
        Option.some.injEq, Prod.mk.injEq] at h
      obtain ⟨hh, hhh, m, hm, b, hb, c, hc, hout, hftr⟩ := h
      refine ⟨⟨e1, e2, e3, hh ++ m ++ b ++ c, he1, he2, he3, ?_⟩,
        ⟨d + 1, m, e1 ++ e2 ++ e3 ++ hh, b ++ c ++ ftr, Or.inl rfl, hm, ?_⟩⟩
      · rw [← hout]; simp [List.append_assoc]
      · rw [← hout, ← hftr]; simp [List.append_assoc]
    · rw [if_neg h2] at h
      by_cases h3 : ct = lit "char*"
      · rw [if_pos h3] at h
        simp only [bind, Option.bind_eq_some, Option.pure_def,
          Option.some.injEq, Prod.mk.injEq] at h
        obtain ⟨hh, hhh, m, hm, b, hb, c, hc, hout, hftr⟩ := h
        refine ⟨⟨e1, e2, e3, hh ++ m ++ b ++ c, he1, he2, he3, ?_⟩,
          ⟨d + 1, m, e1 ++ e2 ++ e3 ++ hh, b ++ c ++ ftr, Or.inl rfl, hm, ?_⟩⟩
        · rw [← hout]; simp [List.append_assoc]
        · rw [← hout, ← hftr]; simp [List.append_assoc]
      · rw [if_neg h3] at h
        simp only [bind, Option.bind_eq_some, Option.pure_def,
          Option.some.injEq, Prod.mk.injEq] at h
        obtain ⟨proto, hproto, fd, hfd, ao, hao, fb, hfb, hout, hftr⟩ := h
        refine ⟨⟨e1, e2, e3, proto, he1, he2, he3, hout.symm⟩,
          ⟨1, ao, (e1 ++ e2 ++ e3 ++ proto) ++ fd,
            fb ++ [lit "\x7d\n\n"], Or.inr rfl, hao, ?_⟩⟩
        rw [← hout, ← hftr]; simp [List.append_assoc]

/-- C4: the two-pass emission contract.  (1) A singular object-reference
field (its mapped type is a pointer or reference) emits only the accessor
signature inline — a single formatted prototype ending in `;` — while the
downcasting body is appended to the deferred queue as the qualified
definition, cast body and closing brace.  (2) A repeated object-reference
field likewise emits inline only the size accessor and the indexed-accessor
prototype, deferring the downcasting body.  (3) In the full two-visitor
pipeline, the output is the forward declarations, then every class
definition, then the deferred queue flushed in FIFO order. -/
theorem downcast_bodies_deferred :
    (∀ (mod : Module) (pt : Line) (f : Field) (tn : Line) (off d : Nat)
        (ct : Line), GetCppType mod f = some ct →
      (ct = f.type ++ lit "_t*" ∨ ct = f.type ++ lit "_t&") →
      f.seq = false →
      VisitField mod pt [lit "Id"] f tn off d = (do
        let proto ← FormatLines (POINTER ct f.name pt ++ lit ";") d
        let fd ← FormatLines
          (POINTER ct (tn ++ lit "::" ++ f.name) pt ++ lit " \x7b") 0
        let fb ← FormatLines
          (if f.opt then
            lit "return static_cast<const " ++ ct ++ lit ">(Optional(base, " ++
              natStr off ++ lit "));"
          else
            lit "return static_cast<const " ++ ct ++ lit ">(Ref(base, " ++
              natStr off ++ lit "));") 1
        pure (proto, fd ++ fb ++ [lit "\x7d\n\n"]))) ∧
    (∀ (mod : Module) (pt : Line) (f : Field) (tn : Line) (off d : Nat)
        (ct : Line), GetCppType mod f = some ct →
      (ct = f.type ++ lit "_t*" ∨ ct = f.type ++ lit "_t&") →
      f.seq = true →
      VisitField mod pt [lit "Id"] f tn off d = (do
        let e1 ← FormatLines (sizeHeader f.name pt) d
        let e2 ← FormatLines (sizeBody off) (d + 1)
        let e3 ← FormatLines (lit "\x7d") d
        let proto ← FormatLines (A_POINTER ct f.name pt ++ lit ";") d
        let fd ← FormatLines
          (A_POINTER ct (tn ++ lit "::" ++ f.name) pt ++ lit " \x7b") 0
        let ao ← FormatLines ARRAY_OFFSET 1
        let fb ← FormatLines
          (lit "return static_cast<const " ++ ct ++ lit ">(Ref(base, " ++
            natStr off ++ lit ").Ref(base, a));") 1
        pure (e1 ++ e2 ++ e3 ++ proto, fd ++ ao ++ fb ++ [lit "\x7d\n\n"]))) ∧
    (∀ (mod : Module) (rwid : Nat) (pt : Line) (et : List Line)
        (out : List Line), chainOutput mod rwid pt et = some out →
      ∃ fwd rs, FwdVisitModule mod = some fwd ∧
        classTypeResults mod rwid pt et = some rs ∧
        out = fwd ++ ((rs.map Prod.fst).flatten ++ (rs.map Prod.snd).flatten)) := by
  have hcond : ∀ (X ct : Line),
      (ct = X ++ lit "_t*" ∨ ct = X ++ lit "_t&") →
      (¬ (ct = lit "bool" ∨ ct = lit "int")) ∧
      endsWithL ct (lit "_e") = false ∧ ct ≠ lit "char*" ∧ ct ≠ lit "Id" := by
    intro X ct hct
    rcases hct with hc | hc <;> subst hc
    · refine ⟨?_, ?_, ?_, ?_⟩
      · rintro (h | h)
        · exact append_fixed_ne (lit "_t*") (lit "bool") (by decide) X h
        · exact append_fixed_ne (lit "_t*") (lit "int") (by decide) X h
      · exact endsWith_append_fixed_false (lit "_t*") (by decide) (by decide) X
      · exact append_fixed_ne (lit "_t*") (lit "char*") (by decide) X
      · exact append_fixed_ne (lit "_t*") (lit "Id") (by decide) X
    · refine ⟨?_, ?_, ?_, ?_⟩
      · rintro (h | h)
        · exact append_fixed_ne (lit "_t&") (lit "bool") (by decide) X h
        · exact append_fixed_ne (lit "_t&") (lit "int") (by decide) X h
      · exact endsWith_append_fixed_false (lit "_t&") (by decide) (by decide) X
      · exact append_fixed_ne (lit "_t&") (lit "char*") (by decide) X
      · exact append_fixed_ne (lit "_t&") (lit "Id") (by decide) X
  refine ⟨?_, ?_, ?_⟩
  · intro mod pt f tn off d ct hg hct hseq
    obtain ⟨hnb, hend, hnc, hnid⟩ := hcond f.type ct hct
    unfold VisitField
    rw [hg]
    simp [hseq, hnb, hend, hnc, hnid]
  · intro mod pt f tn off d ct hg hct hseq
    obtain ⟨hnb, hend, hnc, _⟩ := hcond f.type ct hct
    unfold VisitField
    rw [hg]
    simp [hseq, hnb, hend, hnc]
  · intro mod rwid pt et out h
    unfold chainOutput ClassVisitModule at h
    simp only [bind, Option.bind_eq_some, Option.pure_def,
      Option.some.injEq] at h
    obtain ⟨fwd, hfwd, cls, ⟨rs, hrs, hcls⟩, hout⟩ := h
    exact ⟨fwd, rs, hfwd, hrs, by rw [← hout, ← hcls]⟩

/-- C10: for a compound Sum, the shared-attribute member declarations are
emitted after the closing brace of the base class and after every variant
class — i.e. as the final segment of the type's output, outside every class
body — with exactly one formatted declaration per attribute in declaration
order, and (by the builtin assertion) every attribute type is a builtin
scalar. -/
theorem sum_attributes_after_classes (mod : Module) (rwid : Nat) (pt : Line)
    (et : List Line) (s : Sum) (name : Line) (d : Nat) (out ftr : List Line)
    (_hne : s.attributes ≠ [])
    (h : VisitCompoundSum mod rwid pt et s name d = some (out, ftr)) :
    ∃ (e h1 h2 h3 h4 h5 h6 h7 : List Line)
      (crs : List (List Line × List Line)) (ars : List (List Line)),
      EmitEnum s name d = some e ∧
      FormatLines (lit "class " ++ name ++ lit "_t : public Obj \x7b") d =
        some h1 ∧
      FormatLines (lit " public:") d = some h2 ∧
      FormatLines (name ++ lit "_e tag() const \x7b") (d + 1) = some h3 ∧
      FormatLines (lit "return static_cast<" ++ name ++ lit "_e>(bytes_[0]);")
        (d + 2) = some h4 ∧
      FormatLines (lit "\x7d") (d + 1) = some h5 ∧
      FormatLines (lit "\x7d;") d = some h6 ∧
      FormatLines [] d = some h7 ∧
      s.types.mapM
        (fun t => VisitConstructor mod rwid pt et t (name ++ lit "_t") d) =
        some crs ∧
      attrDecls s.attributes d = some ars ∧
      out = e ++ h1 ++ h2 ++ h3 ++ h4 ++ h5 ++ h6 ++ h7 ++
        (crs.map Prod.fst).flatten ++ ars.flatten ∧
      ars.length = s.attributes.length ∧
      (∀ fl ∈ s.attributes, fl.type ∈ builtin_types) ∧
      (∀ k (hk : k < s.attributes.length),
        ∃ ch, ars[k]? = some ch ∧
          FormatLines ((s.attributes[k]).type ++ lit " " ++
            (s.attributes[k]).name ++ lit ";") (d + 1) = some ch) := by
  unfold VisitCompoundSum at h
  simp only [bind, Option.bind_eq_some, Option.pure_def, Option.some.injEq,
    Prod.mk.injEq] at h
  obtain ⟨e, he, h1, hh1, h2, hh2, h3, hh3, h4, hh4, h5, hh5, h6, hh6,
    h7, hh7, crs, hcrs, ars, hars, hout, hftr⟩ := h
  obtain ⟨hlen, hmem, hidx⟩ := attrDecls_spec s.attributes d ars hars
  exact ⟨e, h1, h2, h3, h4, h5, h6, h7, crs, ars, he, hh1, hh2, hh3, hh4,
    hh5, hh6, hh7, hcrs, hars, hout.symm, hlen, hmem, hidx⟩

/-- Closed witness for `repeated_field_stride` at a concrete repeated
integer field. -/
theorem repeated_field_stride_witness :
    (∃ e1 e2 e3 rest,
      FormatLines (sizeHeader demoSeqIntField.name (lit "uint32_t")) 1 =
        some e1 ∧
      FormatLines (sizeBody 1) (1 + 1) = some e2 ∧
      FormatLines (lit "\x7d") 1 = some e3 ∧
      demoSeqIntOut = e1 ++ e2 ++ e3 ++ rest) ∧
    (∃ dx m pre suf, (dx = 1 + 1 ∨ dx = 1) ∧
      FormatLines ARRAY_OFFSET dx = some m ∧
      demoSeqIntOut ++ ([] : List Line) = pre ++ m ++ suf) :=
  repeated_field_stride demoSimpleMod (lit "uint32_t") [lit "Id"]
    demoSeqIntField (lit "T") 1 1 demoSeqIntOut [] (by decide) (by decide)

/-- Closed witness for `downcast_bodies_deferred`: a singular and a repeated
object-reference field, and the full pipeline on a small module. -/
theorem downcast_bodies_deferred_witness :
    (VisitField demoCompoundMod (lit "uint32_t") [lit "Id"] demoObjField
        (lit "T") 1 1 = (do
      let proto ← FormatLines
        (POINTER (demoObjField.type ++ lit "_t&") demoObjField.name
          (lit "uint32_t") ++ lit ";") 1
      let fd ← FormatLines
        (POINTER (demoObjField.type ++ lit "_t&")
          (lit "T" ++ lit "::" ++ demoObjField.name) (lit "uint32_t") ++
          lit " \x7b") 0
      let fb ← FormatLines
        (if demoObjField.opt then
          lit "return static_cast<const " ++ (demoObjField.type ++ lit "_t&") ++
            lit ">(Optional(base, " ++ natStr 1 ++ lit "));"
        else
          lit "return static_cast<const " ++ (demoObjField.type ++ lit "_t&") ++
            lit ">(Ref(base, " ++ natStr 1 ++ lit "));") 1
      pure (proto, fd ++ fb ++ [lit "\x7d\n\n"]))) ∧
    (VisitField demoCompoundMod (lit "uint32_t") [lit "Id"] demoSeqObjField
        (lit "T") 4 1 = (do
      let e1 ← FormatLines (sizeHeader demoSeqObjField.name (lit "uint32_t")) 1
      let e2 ← FormatLines (sizeBody 4) (1 + 1)
      let e3 ← FormatLines (lit "\x7d") 1
      let proto ← FormatLines
        (A_POINTER (demoSeqObjField.type ++ lit "_t&") demoSeqObjField.name
          (lit "uint32_t") ++ lit ";") 1
      let fd ← FormatLines
        (A_POINTER (demoSeqObjField.type ++ lit "_t&")
          (lit "T" ++ lit "::" ++ demoSeqObjField.name) (lit "uint32_t") ++
          lit " \x7b") 0
      let ao ← FormatLines ARRAY_OFFSET 1
      let fb ← FormatLines
        (lit "return static_cast<const " ++ (demoSeqObjField.type ++ lit "_t&") ++
          lit ">(Ref(base, " ++ natStr 4 ++ lit ").Ref(base, a));") 1
      pure (e1 ++ e2 ++ e3 ++ proto, fd ++ ao ++ fb ++ [lit "\x7d\n\n"]))) ∧
    (∃ fwd rs, FwdVisitModule demoSimpleMod = some fwd ∧
      classTypeResults demoSimpleMod 3 (lit "uint32_t") [lit "Id"] = some rs ∧
      demoChainOut =
        fwd ++ ((rs.map Prod.fst).flatten ++ (rs.map Prod.snd).flatten)) :=
  ⟨downcast_bodies_deferred.1 demoCompoundMod (lit "uint32_t") demoObjField
      (lit "T") 1 1 (demoObjField.type ++ lit "_t&") (by decide)
      (Or.inr rfl) rfl,
   downcast_bodies_deferred.2.1 demoCompoundMod (lit "uint32_t")
      demoSeqObjField (lit "T") 4 1 (demoSeqObjField.type ++ lit "_t&")
      (by decide) (Or.inr rfl) rfl,
   downcast_bodies_deferred.2.2 demoSimpleMod 3 (lit "uint32_t") [lit "Id"]
      demoChainOut (by decide)⟩

/-- Closed witness for `sum_attributes_after_classes` at a concrete compound
Sum with an attribute. -/
theorem sum_attributes_after_classes_witness :
    ∃ (e h1 h2 h3 h4 h5 h6 h7 : List Line)
      (crs : List (List Line × List Line)) (ars : List (List Line)),
      EmitEnum demoAttrSum (lit "word") 0 = some e ∧
      FormatLines (lit "class " ++ lit "word" ++ lit "_t : public Obj \x7b")
        0 = some h1 ∧
      FormatLines (lit " public:") 0 = some h2 ∧
      FormatLines (lit "word" ++ lit "_e tag() const \x7b") (0 + 1) = some h3 ∧
      FormatLines (lit "return static_cast<" ++ lit "word" ++
        lit "_e>(bytes_[0]);") (0 + 2) = some h4 ∧
      FormatLines (lit "\x7d") (0 + 1) = some h5 ∧
      FormatLines (lit "\x7d;") 0 = some h6 ∧
      FormatLines [] 0 = some h7 ∧
      demoAttrSum.types.mapM
        (fun t => VisitConstructor demoCompoundMod 3 (lit "uint32_t")
          [lit "Id"] t (lit "word" ++ lit "_t") 0) = some crs ∧
      attrDecls demoAttrSum.attributes 0 = some ars ∧
      demoAttrSumOut = e ++ h1 ++ h2 ++ h3 ++ h4 ++ h5 ++ h6 ++ h7 ++
        (crs.map Prod.fst).flatten ++ ars.flatten ∧
      ars.length = demoAttrSum.attributes.length ∧
      (∀ fl ∈ demoAttrSum.attributes, fl.type ∈ builtin_types) ∧
      (∀ k (hk : k < demoAttrSum.attributes.length),
        ∃ ch, ars[k]? = some ch ∧
          FormatLines ((demoAttrSum.attributes[k]).type ++ lit " " ++
            (demoAttrSum.attributes[k]).name ++ lit ";") (0 + 1) = some ch) :=
  sum_attributes_after_classes demoCompoundMod 3 (lit "uint32_t") [lit "Id"]
    demoAttrSum (lit "word") 0 demoAttrSumOut [] (by decide) (by decide)

end GenCpp
